import Mathlib

/-!
# Monitor scheduling and collection engine (`pkg/monitor/monitor.go`)

A shallow embedding of the monitor loop and of the two collectors.

* The peer table `map[peer.ID]*peerState` is a function `PeerID → Option peerState`.
* Every function returns, next to the data it mutates, the calls it makes on its
  collaborators: the calls on the waker (`actions.Push`, `actions.PushNow`), the calls on
  the exporter, the requests sent to the remote peer and the goroutines it starts.
* The remote peer client (`telemetry.NewClient`, `SessionInfo`, `Snapshots`, `Bandwidth`)
  and the option values belong to other packages; they are parameters.
* `tryCollectTelemetry` starts the goroutine that drains the snapshot channel and
  returns without joining it.  The functions give the record and the exporter calls at
  the moment of the return, for each point `pt` the goroutine may have reached then, and
  the steps the goroutine still has to do afterwards (`pending`).
* `failedAttemps` is a Go `int`; it grows by one per failed collection, so wrap-around
  is out of reach and the counter is an unbounded `Int`.
-/

namespace Monitor

/-! ## Data model -/

/-- Identity of a remote peer (`peer.ID`, a string type). -/
abbrev PeerID := String

/-- Session identifier (`telemetry.Session`, `uint64` on the wire); only compared. -/
abbrev Session := Nat

/-- Snapshot record, not interpreted by the monitor. -/
abbrev Snapshot := String

/-- Measured bandwidth, not interpreted by the monitor. -/
abbrev Bandwidth := Nat

/-- Go `error` value (non-nil). -/
abbrev Error := String

/-- Go `time.Duration`. -/
abbrev Duration := Int

def ActionDiscover : Nat := 0
def ActionTelemetry : Nat := 1
def ActionBandwidth : Nat := 2
def ActionRemovePeer : Nat := 3

structure action where
  kind : Nat
  pid : PeerID
deriving DecidableEq, Repr

/-- Record of one peer; the mutex field is left out (collections run one at a time). -/
structure peerState where
  id : PeerID
  failedAttemps : Int
  lastSession : Session
  lastSeqN : Nat
deriving DecidableEq, Repr

/-- Option values read by the monitor. -/
structure options where
  CollectPeriod : Duration
  BandwidthPeriod : Duration
  MaxFailedAttemps : Int
deriving DecidableEq, Repr

/-- Constants of package `telemetry` the monitor refers to. -/
structure Consts where
  InvalidSession : Session
  DEFAULT_PAYLOAD_SIZE : Nat
deriving DecidableEq, Repr

/-- One item of the snapshot stream (`telemetry.SnapshotStreamItem`). -/
structure SnapshotStreamItem where
  NextSeqN : Nat
  Snapshots : List Snapshot
deriving DecidableEq, Repr

/-- Behaviour of an open client towards one remote peer.  `Snapshots since` gives the
items the client sends on the channel before it returns (a send on the unbuffered channel
completes when the draining goroutine receives the item), and the error it returns. -/
structure Client where
  SessionInfo : Except Error Session
  Snapshots : Nat → List SnapshotStreamItem × Option Error
  Bandwidth : Nat → Except Error Bandwidth

/-- Behaviour of `telemetry.NewClient(s.h, pid)` at the time of one collection. -/
abbrev Net := PeerID → Except Error Client

/-- Call made on the waker `s.actions`. -/
inductive WakerCall where
  | Push (a : action) (delay : Duration)
  | PushNow (a : action)
deriving DecidableEq, Repr

/-- Action carried by a waker call. -/
def WakerCall.act : WakerCall → action
  | .Push a _ => a
  | .PushNow a => a

/-- Delay of a waker call; `PushNow` enqueues with no delay. -/
def WakerCall.delay : WakerCall → Duration
  | .Push _ d => d
  | .PushNow _ => 0

/-- Call made on the exporter `s.exporter`. -/
inductive ExporterCall where
  | ExportSnapshots (pid : PeerID) (session : Session) (snapshots : List Snapshot)
  | ExportBandwidth (pid : PeerID) (session : Session) (bw : Bandwidth)
deriving DecidableEq, Repr

/-- How far the draining goroutine has got with the last item it received when
`client.Snapshots` returns: it has only received it, it has also stored `NextSeqN`, or it
has also called the exporter. -/
inductive DrainPoint where
  | received
  | stored
  | exported
deriving DecidableEq, Repr

/-- Step of the draining goroutine on an item: the store of `NextSeqN` into the record,
or the call on the exporter. -/
inductive DrainStep where
  | store (n : Nat)
  | exportCall (call : ExporterCall)
deriving DecidableEq, Repr

/-- Request sent to the remote peer after the session was read. -/
inductive ClientCall where
  | Snapshots (since : Nat)
  | Bandwidth (payload : Nat)
deriving DecidableEq, Repr

/-- Goroutine started by the loop, with the record it was handed. -/
inductive Task where
  | collectTelemetry (state : peerState)
  | collectBandwidth (state : peerState)
deriving DecidableEq, Repr

/-- Peer table `s.peers`. -/
abbrev Peers := PeerID → Option peerState

/-- Table of a new monitor (`make(map[peer.ID]*peerState)`). -/
def emptyPeers : Peers := fun _ => none

/-! ## Monitor loop -/

/-- Outcome of handling one action in `Run`. -/
structure LoopResult where
  peers : Peers
  spawned : List Task
  pushed : List WakerCall

/-- `setupPeer`: the table after the call and the returned error (always `nil`). -/
def setupPeer (c : Consts) (peers : Peers) (p : PeerID) : Peers × Option Error :=
  match peers p with
  | some _ => (peers, none)
  | none =>
    (Function.update peers p (some
      { id := p
        failedAttemps := 0
        lastSession := c.InvalidSession
        lastSeqN := 0 }), none)

/-- `onActionTelemetry`: the goroutines started. -/
def onActionTelemetry (peers : Peers) (p : PeerID) : List Task :=
  match peers p with
  | some state => [Task.collectTelemetry state]
  | none => []

/-- `onActionBandwidth`: the goroutines started. -/
def onActionBandwidth (peers : Peers) (p : PeerID) : List Task :=
  match peers p with
  | some state => [Task.collectBandwidth state]
  | none => []

/-- `onActionDiscover`. -/
def onActionDiscover (c : Consts) (peers : Peers) (p : PeerID) : LoopResult :=
  match setupPeer c peers p with
  | (peers1, none) =>
    { peers := peers1
      spawned := onActionTelemetry peers1 p ++ onActionBandwidth peers1 p
      pushed := [] }
  | (peers1, some _) => { peers := peers1, spawned := [], pushed := [] }

/-- Body of the `switch` in `Run` for one received action. -/
def dispatch (c : Consts) (peers : Peers) (a : action) : LoopResult :=
  if a.kind = ActionDiscover then onActionDiscover c peers a.pid
  else if a.kind = ActionTelemetry then
    { peers := peers, spawned := onActionTelemetry peers a.pid, pushed := [] }
  else if a.kind = ActionBandwidth then
    { peers := peers, spawned := onActionBandwidth peers a.pid, pushed := [] }
  else if a.kind = ActionRemovePeer then
    { peers := Function.update peers a.pid none, spawned := [], pushed := [] }
  else { peers := peers, spawned := [], pushed := [] }

/-- Handling a list of received actions one after the other. -/
def dispatchAll (c : Consts) (peers : Peers) : List action → LoopResult
  | [] => { peers := peers, spawned := [], pushed := [] }
  | a :: rest =>
    let r := dispatch c peers a
    let r2 := dispatchAll c r.peers rest
    { peers := r2.peers, spawned := r.spawned ++ r2.spawned, pushed := r.pushed ++ r2.pushed }

/-! ## Collectors -/

/-- Outcome of `tryCollectTelemetry` / `tryCollectBandwidth` at the moment the function
returns: the record and the exporter calls as they are then, and in `pending` what the
draining goroutine of `tryCollectTelemetry` still has to do after the return. -/
structure TryResult where
  state : peerState
  exported : List ExporterCall
  requests : List ClientCall
  err : Option Error
  pending : List DrainStep
deriving DecidableEq, Repr

/-- Outcome of `collectTelemetry` / `collectBandwidth` at the moment the function returns
and the lock is released; `pending` as in `TryResult`. -/
structure CollectResult where
  state : peerState
  exported : List ExporterCall
  requests : List ClientCall
  pushed : List WakerCall
  err : Option Error
  pending : List DrainStep
deriving DecidableEq, Repr

/-- The body of the goroutine of `tryCollectTelemetry` run on the items it has handled
completely: for each item it stores `NextSeqN` and then calls the exporter. -/
def drainStream (session : Session) (state : peerState) :
    List SnapshotStreamItem → peerState × List ExporterCall
  | [] => (state, [])
  | item :: rest =>
    let state1 := { state with lastSeqN := item.NextSeqN }
    let r := drainStream session state1 rest
    (r.1, ExporterCall.ExportSnapshots state1.id session item.Snapshots :: r.2)

/-- The goroutine of `tryCollectTelemetry` at the moment `client.Snapshots` returns,
having sent `items` on the unbuffered channel.  A send completes when the goroutine
receives the item, and the goroutine receives an item only after the body for the item
before is done: all items but the last are handled completely, and the last one is
handled as far as `pt` says.  The function is not joined, so the rest is `pending`. -/
def drainAtReturn (pt : DrainPoint) (session : Session) (state : peerState)
    (items : List SnapshotStreamItem) : peerState × List ExporterCall × List DrainStep :=
  let d := drainStream session state items.dropLast
  match items.getLast? with
  | none => (d.1, d.2, [])
  | some last =>
    match pt with
    | .received =>
      (d.1, d.2,
        [DrainStep.store last.NextSeqN,
         DrainStep.exportCall (ExporterCall.ExportSnapshots d.1.id session last.Snapshots)])
    | .stored =>
      ({ d.1 with lastSeqN := last.NextSeqN }, d.2,
        [DrainStep.exportCall (ExporterCall.ExportSnapshots d.1.id session last.Snapshots)])
    | .exported =>
      ({ d.1 with lastSeqN := last.NextSeqN },
        d.2 ++ [ExporterCall.ExportSnapshots d.1.id session last.Snapshots], [])

/-- The goroutine doing its pending steps on the record as it is then: the record
afterwards and the exporter calls made. -/
def finishDrain (state : peerState) : List DrainStep → peerState × List ExporterCall
  | [] => (state, [])
  | .store n :: rest => finishDrain { state with lastSeqN := n } rest
  | .exportCall call :: rest =>
    let r := finishDrain state rest
    (r.1, call :: r.2)

/-- `tryCollectTelemetry`, up to its return. -/
def tryCollectTelemetry (net : Net) (pt : DrainPoint) (state : peerState) : TryResult :=
  match net state.id with
  | .error e => { state := state, exported := [], requests := [], err := some e, pending := [] }
  | .ok client =>
    match client.SessionInfo with
    | .error e =>
      { state := state, exported := [], requests := [], err := some e, pending := [] }
    | .ok session =>
      let since := if session ≠ state.lastSession then 0 else state.lastSeqN
      let state1 :=
        if session ≠ state.lastSession then { state with lastSession := session } else state
      let r := client.Snapshots since
      let d := drainAtReturn pt session state1 r.1
      { state := d.1, exported := d.2.1, requests := [ClientCall.Snapshots since]
        err := r.2, pending := d.2.2 }

/-- `tryCollectBandwidth`. -/
def tryCollectBandwidth (c : Consts) (net : Net) (state : peerState) : TryResult :=
  match net state.id with
  | .error e => { state := state, exported := [], requests := [], err := some e, pending := [] }
  | .ok client =>
    match client.SessionInfo with
    | .error e =>
      { state := state, exported := [], requests := [], err := some e, pending := [] }
    | .ok session =>
      match client.Bandwidth c.DEFAULT_PAYLOAD_SIZE with
      | .error e =>
        { state := state, exported := []
          requests := [ClientCall.Bandwidth c.DEFAULT_PAYLOAD_SIZE], err := some e
          pending := [] }
      | .ok bandwidth =>
        { state := state
          exported := [ExporterCall.ExportBandwidth state.id session bandwidth]
          requests := [ClientCall.Bandwidth c.DEFAULT_PAYLOAD_SIZE], err := none
          pending := [] }

/-- `peerError`: the record after the call and the calls made on the waker. -/
def peerError (opts : options) (state : peerState) (_err : Error) :
    peerState × List WakerCall :=
  let state1 := { state with failedAttemps := state.failedAttemps + 1 }
  if state1.failedAttemps > opts.MaxFailedAttemps then
    (state1, [WakerCall.PushNow { kind := ActionRemovePeer, pid := state1.id }])
  else (state1, [])

/-- `collectTelemetry`, up to its return. -/
def collectTelemetry (opts : options) (net : Net) (pt : DrainPoint) (state : peerState) :
    CollectResult :=
  let r := tryCollectTelemetry net pt state
  match r.err with
  | none =>
    { state := r.state, exported := r.exported, requests := r.requests
      pushed := [WakerCall.Push { kind := ActionTelemetry, pid := r.state.id } opts.CollectPeriod]
      err := none, pending := r.pending }
  | some e =>
    let pe := peerError opts r.state e
    { state := pe.1, exported := r.exported, requests := r.requests
      pushed := pe.2, err := some e, pending := r.pending }

/-- `collectBandwidth`. -/
def collectBandwidth (opts : options) (c : Consts) (net : Net) (state : peerState) :
    CollectResult :=
  let r := tryCollectBandwidth c net state
  match r.err with
  | none =>
    { state := r.state, exported := r.exported, requests := r.requests
      pushed := [WakerCall.Push { kind := ActionBandwidth, pid := r.state.id } opts.BandwidthPeriod]
      err := none, pending := r.pending }
  | some e =>
    let pe := peerError opts r.state e
    { state := pe.1, exported := r.exported, requests := r.requests
      pushed := pe.2, err := some e, pending := r.pending }

/-! ## Runs on one record -/

/-- What happens to a record in a run: a telemetry collection (with the behaviour of the
network during it and the point its draining goroutine has reached at the return), a
bandwidth collection, or the store of `lastSeqN` by the draining goroutine of an earlier
telemetry collection that lands at this point of the run. -/
inductive Event where
  | telemetry (net : Net) (pt : DrainPoint)
  | bandwidth (net : Net)
  | lateStore (n : Nat)

/-- One event on a record. -/
def step (opts : options) (c : Consts) (state : peerState) : Event → CollectResult
  | .telemetry net pt => collectTelemetry opts net pt state
  | .bandwidth net => collectBandwidth opts c net state
  | .lateStore n =>
    { state := { state with lastSeqN := n }, exported := [], requests := [], pushed := []
      err := none, pending := [] }

/-- Record after a list of events, one after the other (the collectors all hold the same
record and take its lock in turn). -/
def stepAll (opts : options) (c : Consts) (state : peerState) : List Event → peerState
  | [] => state
  | x :: rest => stepAll opts c (step opts c state x).state rest

/-- Number of collections of the run that returned an error. -/
def failures (opts : options) (c : Consts) (state : peerState) : List Event → Nat
  | [] => 0
  | x :: rest =>
    (if (step opts c state x).err.isSome then 1 else 0)
      + failures opts c (step opts c state x).state rest

/-- Record of a telemetry attempt once its draining goroutine has done its pending
steps, nothing else having written the record after the return. -/
def drained (r : TryResult) : peerState := (finishDrain r.state r.pending).1

/-- Records observed along a list of telemetry collections in which every collection
starts after the draining goroutine of the one before has finished: the record after
each drain. -/
def telemetryTrace (state : peerState) : List (Net × DrainPoint) → List peerState
  | [] => []
  | x :: rest =>
    drained (tryCollectTelemetry x.1 x.2 state)
      :: telemetryTrace (drained (tryCollectTelemetry x.1 x.2 state)) rest

/-- Order on records claimed for successive observations: the session does not go down
and, when it stays, the sequence number does not go down. -/
def seqLE (a b : peerState) : Prop :=
  a.lastSession ≤ b.lastSession ∧ (a.lastSession = b.lastSession → a.lastSeqN ≤ b.lastSeqN)

instance (a b : peerState) : Decidable (seqLE a b) :=
  inferInstanceAs (Decidable
    (a.lastSession ≤ b.lastSession ∧ (a.lastSession = b.lastSession → a.lastSeqN ≤ b.lastSeqN)))

/-- Session a peer reports during one collection, if it answers. -/
def reportedSession (pid : PeerID) (net : Net) : Option Session :=
  match net pid with
  | .error _ => none
  | .ok client =>
    match client.SessionInfo with
    | .error _ => none
    | .ok S => some S

/-- The peer keeps the stream protocol: whatever `since` it is asked for, the `NextSeqN`
of the batches it delivers start at `since` or above and do not go down. -/
def streamInOrder (client : Client) : Prop :=
  ∀ since : Nat,
    List.Chain (fun a b => a ≤ b) since
      ((client.Snapshots since).1.map SnapshotStreamItem.NextSeqN)

/-! ## Sample values -/

/-- Sample constants. -/
def sampleConsts : Consts := { InvalidSession := 0, DEFAULT_PAYLOAD_SIZE := 1024 }

/-- Sample record of a peer that has been collected before. -/
def sampleRecord : peerState :=
  { id := "P1", failedAttemps := 1, lastSession := 7, lastSeqN := 5 }

/-- Sample table holding `sampleRecord` only. -/
def sampleTable : Peers := Function.update emptyPeers "P1" (some sampleRecord)

/-- Client of a peer that reports `session` and whose snapshot stream delivers `items`
and then returns `err`, whatever `since` is. -/
def streamClient (session : Session) (items : List SnapshotStreamItem)
    (err : Option Error) : Client :=
  { SessionInfo := .ok session
    Snapshots := fun _ => (items, err)
    Bandwidth := fun _ => .ok 0 }

/-- Network on which every peer is reached through `client`. -/
def netOf (client : Client) : Net := fun _ => .ok client

/-- Network on which no peer can be reached. -/
def failingNet : Net := fun _ => .error "dial failed"

/-- The two batches of scenario S1. -/
def sampleItems : List SnapshotStreamItem :=
  [{ NextSeqN := 3, Snapshots := ["a", "b", "c"] }, { NextSeqN := 5, Snapshots := ["d", "e"] }]

/-- Sample option values. -/
def sampleOpts : options := { CollectPeriod := 60, BandwidthPeriod := 300, MaxFailedAttemps := 2 }

/-- Record inserted for `P1` by a Discover on a monitor with `sampleConsts`. -/
def freshRecord : peerState :=
  { id := "P1", failedAttemps := 0, lastSession := 0, lastSeqN := 0 }

/-- Client of a peer in `session` that holds the snapshot log `records`: asked for the
snapshots since `since`, it delivers the records from index `since` on, in two batches cut
at index `cut` when `since < cut < records.length`, in one batch when only
`since < records.length`, and no batch otherwise; the stream ends without error. -/
def logClient (session : Session) (records : List Snapshot) (cut : Nat) : Client :=
  { SessionInfo := .ok session
    Snapshots := fun since =>
      if since < cut ∧ cut < records.length then
        ([{ NextSeqN := cut, Snapshots := (records.take cut).drop since },
          { NextSeqN := records.length, Snapshots := records.drop cut }], none)
      else if since < records.length then
        ([{ NextSeqN := records.length, Snapshots := records.drop since }], none)
      else ([], none)
    Bandwidth := fun _ => .ok 0 }

/-- Sample run of telemetry collections on `freshRecord`: the peer is in session 7 with
five records, then in session 7 with seven records, then out of reach, then in session 8
with one record. -/
def sampleRun : List (Net × DrainPoint) :=
  [(netOf (logClient 7 ["a", "b", "c", "d", "e"] 3), DrainPoint.received),
   (netOf (logClient 7 ["a", "b", "c", "d", "e", "f", "g"] 3), DrainPoint.stored),
   (failingNet, DrainPoint.exported),
   (netOf (logClient 8 ["h"] 3), DrainPoint.exported)]

/-- Sample run on `freshRecord`: a failed telemetry collection, a successful one that
returns before its goroutine has handled the last batch, the late store of that batch,
and a failed bandwidth collection. -/
def sampleEvents : List Event :=
  [Event.telemetry failingNet DrainPoint.exported,
   Event.telemetry (netOf (streamClient 7 sampleItems none)) DrainPoint.received,
   Event.lateStore 5,
   Event.bandwidth failingNet]

/-! ## The monitor loop: Discover, RemovePeer and late actions -/

theorem setupPeer_present (c : Consts) (peers : Peers) (p : PeerID) (state : peerState)
    (h : peers p = some state) : setupPeer c peers p = (peers, none) := by
  simp [setupPeer, h]

theorem setupPeer_absent (c : Consts) (peers : Peers) (p : PeerID) (h : peers p = none) :
    setupPeer c peers p =
      (Function.update peers p (some
        { id := p, failedAttemps := 0, lastSession := c.InvalidSession, lastSeqN := 0 }),
        none) := by
  simp [setupPeer, h]

theorem onActionDiscover_present (c : Consts) (peers : Peers) (p : PeerID)
    (state : peerState) (h : peers p = some state) :
    (onActionDiscover c peers p).peers = peers
      ∧ (onActionDiscover c peers p).spawned
          = [Task.collectTelemetry state, Task.collectBandwidth state]
      ∧ (onActionDiscover c peers p).pushed = [] := by
  simp [onActionDiscover, setupPeer_present c peers p state h, onActionTelemetry,
    onActionBandwidth, h]

theorem onActionDiscover_absent (c : Consts) (peers : Peers) (p : PeerID)
    (h : peers p = none) :
    (onActionDiscover c peers p).peers
        = Function.update peers p (some
            { id := p, failedAttemps := 0, lastSession := c.InvalidSession, lastSeqN := 0 })
      ∧ (onActionDiscover c peers p).spawned
          = [Task.collectTelemetry
              { id := p, failedAttemps := 0, lastSession := c.InvalidSession, lastSeqN := 0 },
             Task.collectBandwidth
              { id := p, failedAttemps := 0, lastSession := c.InvalidSession, lastSeqN := 0 }]
      ∧ (onActionDiscover c peers p).pushed = [] := by
  simp [onActionDiscover, setupPeer_absent c peers p h, onActionTelemetry, onActionBandwidth]

/-- C1, as stated, fails: handling Discover of an unknown peer makes no call on the waker,
so it does not enqueue one Telemetry and one Bandwidth action with zero delay. -/
theorem discover_unknown_enqueues_nothing :
    ¬ ∀ (c : Consts) (peers : Peers) (p : PeerID), peers p = none →
        (((dispatch c peers { kind := ActionDiscover, pid := p }).pushed.filter
            (fun w => w.act = { kind := ActionTelemetry, pid := p })).map WakerCall.delay = [0]
          ∧ ((dispatch c peers { kind := ActionDiscover, pid := p }).pushed.filter
            (fun w => w.act = { kind := ActionBandwidth, pid := p })).map WakerCall.delay = [0]) := by
  intro h
  have h1 := (h sampleConsts emptyPeers "P1" rfl).1
  simp [dispatch, (onActionDiscover_absent sampleConsts emptyPeers "P1" rfl).2.2] at h1

/-- C1, amended: handling Discover(p) for a peer absent from the table inserts the fresh
record (no failed attempt, invalid session, sequence number 0) for p, leaves the other
peers as they were, starts one telemetry collector and one bandwidth collector on that
record, in this order, and makes no call on the waker. -/
theorem discover_unknown_inserts_and_starts_collectors (c : Consts) (peers : Peers)
    (p : PeerID) (h : peers p = none) :
    (dispatch c peers { kind := ActionDiscover, pid := p }).peers p
        = some { id := p, failedAttemps := 0, lastSession := c.InvalidSession, lastSeqN := 0 }
      ∧ (∀ q, q ≠ p → (dispatch c peers { kind := ActionDiscover, pid := p }).peers q = peers q)
      ∧ (dispatch c peers { kind := ActionDiscover, pid := p }).spawned
          = [Task.collectTelemetry
              { id := p, failedAttemps := 0, lastSession := c.InvalidSession, lastSeqN := 0 },
             Task.collectBandwidth
              { id := p, failedAttemps := 0, lastSession := c.InvalidSession, lastSeqN := 0 }]
      ∧ (dispatch c peers { kind := ActionDiscover, pid := p }).pushed = [] := by
  obtain ⟨h1, h2, h3⟩ := onActionDiscover_absent c peers p h
  have hd : dispatch c peers { kind := ActionDiscover, pid := p } = onActionDiscover c peers p := by
    simp [dispatch]
  rw [hd, h1, h2, h3]
  refine ⟨by simp, ?_, rfl, rfl⟩
  intro q hq
  simp [Function.update_noteq hq]

theorem discover_unknown_inserts_and_starts_collectors_witness :
    emptyPeers "P1" = none
      ∧ (dispatch sampleConsts emptyPeers { kind := ActionDiscover, pid := "P1" }).spawned
          = [Task.collectTelemetry
              { id := "P1", failedAttemps := 0, lastSession := 0, lastSeqN := 0 },
             Task.collectBandwidth
              { id := "P1", failedAttemps := 0, lastSession := 0, lastSeqN := 0 }]
      ∧ (dispatch sampleConsts emptyPeers { kind := ActionDiscover, pid := "P1" }).pushed = [] :=
  ⟨rfl, (discover_unknown_inserts_and_starts_collectors sampleConsts emptyPeers "P1" rfl).2.2⟩

theorem dispatch_discover (c : Consts) (peers : Peers) (p : PeerID) :
    dispatch c peers { kind := ActionDiscover, pid := p } = onActionDiscover c peers p := by
  simp [dispatch]

theorem discover_then_present (c : Consts) (peers : Peers) (p : PeerID) :
    ∃ s, (onActionDiscover c peers p).peers p = some s
      ∧ (onActionDiscover c peers p).spawned = [Task.collectTelemetry s, Task.collectBandwidth s]
      ∧ (onActionDiscover c peers p).pushed = [] := by
  cases h : peers p with
  | none =>
    obtain ⟨h1, h2, h3⟩ := onActionDiscover_absent c peers p h
    exact ⟨_, by rw [h1]; simp, h2, h3⟩
  | some state =>
    obtain ⟨h1, h2, h3⟩ := onActionDiscover_present c peers p state h
    exact ⟨state, by rw [h1]; exact h, h2, h3⟩

theorem discover_twice (c : Consts) (peers : Peers) (p : PeerID) :
    ∃ s, (dispatchAll c peers
            [{ kind := ActionDiscover, pid := p }, { kind := ActionDiscover, pid := p }]).spawned
          = [Task.collectTelemetry s, Task.collectBandwidth s,
             Task.collectTelemetry s, Task.collectBandwidth s]
      ∧ (dispatchAll c peers
            [{ kind := ActionDiscover, pid := p }, { kind := ActionDiscover, pid := p }]).pushed
          = [] := by
  obtain ⟨s, h1, h2, h3⟩ := discover_then_present c peers p
  obtain ⟨_, k2, k3⟩ := onActionDiscover_present c (onActionDiscover c peers p).peers p s h1
  exact ⟨s, by simp [dispatchAll, dispatch_discover, h2, k2],
    by simp [dispatchAll, dispatch_discover, h3, k3]⟩

/-- C2, as stated, fails: handling Discover of a peer already in the table starts a
telemetry collector and a bandwidth collector again, and two Discover in a row on a new
monitor start two collectors of each kind. -/
theorem discover_known_not_absorbed :
    (¬ ∀ (c : Consts) (peers : Peers) (p : PeerID) (state : peerState), peers p = some state →
        (dispatch c peers { kind := ActionDiscover, pid := p }).spawned = []
          ∧ (dispatch c peers { kind := ActionDiscover, pid := p }).pushed = [])
      ∧ (dispatchAll sampleConsts emptyPeers
            [{ kind := ActionDiscover, pid := "P3" }, { kind := ActionDiscover, pid := "P3" }]).spawned
          = [Task.collectTelemetry { id := "P3", failedAttemps := 0, lastSession := 0, lastSeqN := 0 },
             Task.collectBandwidth { id := "P3", failedAttemps := 0, lastSession := 0, lastSeqN := 0 },
             Task.collectTelemetry { id := "P3", failedAttemps := 0, lastSession := 0, lastSeqN := 0 },
             Task.collectBandwidth { id := "P3", failedAttemps := 0, lastSession := 0, lastSeqN := 0 }] := by
  constructor
  · intro h
    have h1 := (h sampleConsts sampleTable "P1" sampleRecord (by simp [sampleTable])).1
    rw [dispatch_discover,
      (onActionDiscover_present sampleConsts sampleTable "P1" sampleRecord
        (by simp [sampleTable])).2.1] at h1
    simp at h1
  · simp [dispatchAll, dispatch_discover, onActionDiscover, setupPeer, emptyPeers,
      onActionTelemetry, onActionBandwidth, sampleConsts]

/-- C2, amended: handling Discover(p) for a peer already in the table leaves the table
as it is and makes no call on the waker, and it starts one telemetry collector and one
bandwidth collector on the existing record of p; two Discover(p) in a row, on any table,
start two telemetry and two bandwidth collectors on the record of p and make no call on
the waker. -/
theorem discover_known_restarts_collectors (c : Consts) (peers : Peers) (p : PeerID)
    (state : peerState) (h : peers p = some state) :
    (dispatch c peers { kind := ActionDiscover, pid := p }).peers = peers
      ∧ (dispatch c peers { kind := ActionDiscover, pid := p }).pushed = []
      ∧ (dispatch c peers { kind := ActionDiscover, pid := p }).spawned
          = [Task.collectTelemetry state, Task.collectBandwidth state]
      ∧ (∀ t : Peers, ∃ s,
          (dispatchAll c t
            [{ kind := ActionDiscover, pid := p }, { kind := ActionDiscover, pid := p }]).spawned
            = [Task.collectTelemetry s, Task.collectBandwidth s,
               Task.collectTelemetry s, Task.collectBandwidth s]
          ∧ (dispatchAll c t
            [{ kind := ActionDiscover, pid := p }, { kind := ActionDiscover, pid := p }]).pushed
            = []) := by
  obtain ⟨h1, h2, h3⟩ := onActionDiscover_present c peers p state h
  rw [dispatch_discover]
  exact ⟨h1, h3, h2, fun t => discover_twice c t p⟩

theorem discover_known_restarts_collectors_witness :
    sampleTable "P1" = some sampleRecord
      ∧ (dispatch sampleConsts sampleTable { kind := ActionDiscover, pid := "P1" }).spawned
          = [Task.collectTelemetry sampleRecord, Task.collectBandwidth sampleRecord] :=
  ⟨by simp [sampleTable],
   (discover_known_restarts_collectors sampleConsts sampleTable "P1" sampleRecord
      (by simp [sampleTable])).2.2.1⟩

/-- C3: handling Discover(p) for a peer already in the table leaves the table unchanged:
every peer keeps its record, and the record of p is the one it had, with its failed
attempts, last session and last sequence number. -/
theorem discover_known_table_unchanged (c : Consts) (peers : Peers) (p : PeerID)
    (state : peerState) (h : peers p = some state) :
    (dispatch c peers { kind := ActionDiscover, pid := p }).peers = peers
      ∧ (dispatch c peers { kind := ActionDiscover, pid := p }).peers p = some state := by
  have h1 := (onActionDiscover_present c peers p state h).1
  rw [dispatch_discover, h1]
  exact ⟨rfl, h⟩

theorem discover_known_table_unchanged_witness :
    sampleTable "P1" = some sampleRecord
      ∧ (dispatch sampleConsts sampleTable { kind := ActionDiscover, pid := "P1" }).peers "P1"
          = some { id := "P1", failedAttemps := 1, lastSession := 7, lastSeqN := 5 } :=
  ⟨by simp [sampleTable],
   (discover_known_table_unchanged sampleConsts sampleTable "P1" sampleRecord
      (by simp [sampleTable])).2⟩

/-- C10: handling RemovePeer(p) gives a table without p in which every other peer has
the record it had; and handling a Telemetry or a Bandwidth action for a peer that is not
in the table starts no collector, makes no call on the waker and leaves the table as it
is, so that p is still absent. -/
theorem removePeer_and_late_actions (c : Consts) (peers : Peers) (p : PeerID) :
    (dispatch c peers { kind := ActionRemovePeer, pid := p }).peers p = none
      ∧ (∀ q, q ≠ p →
          (dispatch c peers { kind := ActionRemovePeer, pid := p }).peers q = peers q)
      ∧ (peers p = none →
          (dispatch c peers { kind := ActionTelemetry, pid := p }).spawned = []
            ∧ (dispatch c peers { kind := ActionTelemetry, pid := p }).pushed = []
            ∧ (dispatch c peers { kind := ActionTelemetry, pid := p }).peers = peers
            ∧ (dispatch c peers { kind := ActionBandwidth, pid := p }).spawned = []
            ∧ (dispatch c peers { kind := ActionBandwidth, pid := p }).pushed = []
            ∧ (dispatch c peers { kind := ActionBandwidth, pid := p }).peers = peers) := by
  refine ⟨?_, ?_, ?_⟩
  · simp [dispatch, ActionRemovePeer, ActionDiscover, ActionTelemetry, ActionBandwidth]
  · intro q hq
    simp [dispatch, ActionRemovePeer, ActionDiscover, ActionTelemetry, ActionBandwidth,
      Function.update_noteq hq]
  · intro h
    simp [dispatch, ActionDiscover, ActionTelemetry, ActionBandwidth, onActionTelemetry,
      onActionBandwidth, h]

theorem removePeer_and_late_actions_witness :
    (dispatch sampleConsts sampleTable { kind := ActionRemovePeer, pid := "P1" }).peers "P1" = none
      ∧ (dispatch sampleConsts emptyPeers { kind := ActionTelemetry, pid := "P1" }).spawned = [] :=
  ⟨(removePeer_and_late_actions sampleConsts sampleTable "P1").1,
   ((removePeer_and_late_actions sampleConsts emptyPeers "P1").2.2 rfl).1⟩

/-! ## Telemetry collection -/

theorem drainStream_state (session : Session) (items : List SnapshotStreamItem) :
    ∀ state : peerState,
      (drainStream session state items).1
        = { state with
            lastSeqN := (items.getLast?.map SnapshotStreamItem.NextSeqN).getD state.lastSeqN } := by
  induction items with
  | nil => intro state; rfl
  | cons item rest ih =>
    intro state
    simp only [drainStream]
    rw [ih]
    cases rest with
    | nil => rfl
    | cons b bs =>
      have hl : (item :: b :: bs).getLast? = (b :: bs).getLast? := List.getLast?_cons_cons
      have hb : (b :: bs).getLast? = some ((b :: bs).getLast (List.cons_ne_nil b bs)) :=
        List.getLast?_eq_getLast _ _
      rw [hl, hb]
      rfl

theorem drainStream_exported (session : Session) (items : List SnapshotStreamItem) :
    ∀ state : peerState,
      (drainStream session state items).2
        = items.map (fun b => ExporterCall.ExportSnapshots state.id session b.Snapshots) := by
  induction items with
  | nil => intro state; rfl
  | cons item rest ih =>
    intro state
    simp only [drainStream, List.map_cons]
    rw [ih]

theorem drainAtReturn_nil (pt : DrainPoint) (session : Session) (state : peerState) :
    drainAtReturn pt session state [] = (state, [], []) := rfl

theorem drainAtReturn_concat (pt : DrainPoint) (session : Session) (state : peerState)
    (L : List SnapshotStreamItem) (b : SnapshotStreamItem) :
    drainAtReturn pt session state (L ++ [b])
      = match pt with
        | .received =>
          ((drainStream session state L).1, (drainStream session state L).2,
            [DrainStep.store b.NextSeqN,
             DrainStep.exportCall (ExporterCall.ExportSnapshots state.id session b.Snapshots)])
        | .stored =>
          ({ (drainStream session state L).1 with lastSeqN := b.NextSeqN },
            (drainStream session state L).2,
            [DrainStep.exportCall (ExporterCall.ExportSnapshots state.id session b.Snapshots)])
        | .exported =>
          ({ (drainStream session state L).1 with lastSeqN := b.NextSeqN },
            (drainStream session state L).2
              ++ [ExporterCall.ExportSnapshots state.id session b.Snapshots], []) := by
  have hid : (drainStream session state L).1.id = state.id := by rw [drainStream_state]
  cases pt <;>
    simp only [drainAtReturn, List.dropLast_concat, List.getLast?_concat, hid]

/-- The record at the return is the given one but for `lastSeqN`. -/
theorem drainAtReturn_state (pt : DrainPoint) (session : Session) (state : peerState)
    (items : List SnapshotStreamItem) :
    ∃ n, (drainAtReturn pt session state items).1 = { state with lastSeqN := n } := by
  rcases List.eq_nil_or_concat items with h | ⟨L, b, h⟩
  · subst h
    exact ⟨state.lastSeqN, rfl⟩
  · subst h
    rw [List.concat_eq_append, drainAtReturn_concat]
    cases pt
    · exact ⟨_, drainStream_state session L state⟩
    · exact ⟨b.NextSeqN, by simp only [drainStream_state]⟩
    · exact ⟨b.NextSeqN, by simp only [drainStream_state]⟩

/-- Once the pending steps are done, the record and the exporter calls are those of the
goroutine body run on all the items. -/
theorem drainAtReturn_finish (pt : DrainPoint) (session : Session) (state : peerState)
    (items : List SnapshotStreamItem) :
    (finishDrain (drainAtReturn pt session state items).1
        (drainAtReturn pt session state items).2.2).1
        = { state with
            lastSeqN := (items.getLast?.map SnapshotStreamItem.NextSeqN).getD state.lastSeqN }
      ∧ (drainAtReturn pt session state items).2.1
          ++ (finishDrain (drainAtReturn pt session state items).1
                (drainAtReturn pt session state items).2.2).2
        = items.map (fun b => ExporterCall.ExportSnapshots state.id session b.Snapshots) := by
  rcases List.eq_nil_or_concat items with h | ⟨L, b, h⟩
  · subst h
    simp [drainAtReturn_nil, finishDrain]
  · subst h
    rw [List.concat_eq_append, drainAtReturn_concat]
    cases pt <;>
      simp [finishDrain, drainStream_state, drainStream_exported, List.getLast?_concat]

theorem tryCollectTelemetry_ok (net : Net) (pt : DrainPoint) (state : peerState)
    (client : Client) (S : Session)
    (h1 : net state.id = .ok client) (h2 : client.SessionInfo = .ok S) :
    tryCollectTelemetry net pt state =
      { state :=
          (drainAtReturn pt S
            (if S ≠ state.lastSession then { state with lastSession := S } else state)
            (client.Snapshots (if S ≠ state.lastSession then 0 else state.lastSeqN)).1).1
        exported :=
          (drainAtReturn pt S
            (if S ≠ state.lastSession then { state with lastSession := S } else state)
            (client.Snapshots (if S ≠ state.lastSession then 0 else state.lastSeqN)).1).2.1
        requests := [ClientCall.Snapshots (if S ≠ state.lastSession then 0 else state.lastSeqN)]
        err := (client.Snapshots (if S ≠ state.lastSession then 0 else state.lastSeqN)).2
        pending :=
          (drainAtReturn pt S
            (if S ≠ state.lastSession then { state with lastSession := S } else state)
            (client.Snapshots (if S ≠ state.lastSession then 0 else state.lastSeqN)).1).2.2 } := by
  simp only [tryCollectTelemetry, h1, h2]

theorem tryCollectTelemetry_unreached (net : Net) (pt : DrainPoint) (state : peerState)
    (h : reportedSession state.id net = none) :
    (tryCollectTelemetry net pt state).state = state
      ∧ (tryCollectTelemetry net pt state).pending = []
      ∧ (tryCollectTelemetry net pt state).exported = [] := by
  unfold reportedSession at h
  cases h1 : net state.id with
  | error e => simp [tryCollectTelemetry, h1]
  | ok client =>
    cases h2 : client.SessionInfo with
    | error e => simp [tryCollectTelemetry, h1, h2]
    | ok S => simp [h1, h2] at h

theorem session_after_switch (S : Session) (state : peerState) :
    (if S ≠ state.lastSession then { state with lastSession := S } else state).lastSession = S := by
  by_cases h : S = state.lastSession
  · simp [h]
  · simp [h]

theorem id_after_switch (S : Session) (state : peerState) :
    (if S ≠ state.lastSession then { state with lastSession := S } else state).id = state.id := by
  by_cases h : S = state.lastSession
  · simp [h]
  · simp [h]

theorem seqn_after_switch (S : Session) (state : peerState) :
    (if S ≠ state.lastSession then { state with lastSession := S } else state).lastSeqN
      = state.lastSeqN := by
  by_cases h : S = state.lastSession
  · simp [h]
  · simp [h]

theorem failed_after_switch (S : Session) (state : peerState) :
    (if S ≠ state.lastSession then { state with lastSession := S } else state).failedAttemps
      = state.failedAttemps := by
  by_cases h : S = state.lastSession
  · simp [h]
  · simp [h]

/-- A telemetry attempt changes neither the identity nor the failed attempts of the
record. -/
theorem tryCollectTelemetry_keeps (net : Net) (pt : DrainPoint) (state : peerState) :
    (tryCollectTelemetry net pt state).state.id = state.id
      ∧ (tryCollectTelemetry net pt state).state.failedAttemps = state.failedAttemps := by
  cases h1 : net state.id with
  | error e => simp [tryCollectTelemetry, h1]
  | ok client =>
    cases h2 : client.SessionInfo with
    | error e => simp [tryCollectTelemetry, h1, h2]
    | ok S =>
      rw [tryCollectTelemetry_ok net pt state client S h1 h2]
      obtain ⟨n, hn⟩ := drainAtReturn_state pt S
        (if S ≠ state.lastSession then { state with lastSession := S } else state)
        (client.Snapshots (if S ≠ state.lastSession then 0 else state.lastSeqN)).1
      simp only [hn]
      exact ⟨id_after_switch S state, failed_after_switch S state⟩

theorem peerError_keeps (opts : options) (state : peerState) (e : Error) :
    (peerError opts state e).1 = { state with failedAttemps := state.failedAttemps + 1 } := by
  simp only [peerError]
  split <;> rfl

theorem collectTelemetry_fields (opts : options) (net : Net) (pt : DrainPoint)
    (state : peerState) :
    (collectTelemetry opts net pt state).exported = (tryCollectTelemetry net pt state).exported
      ∧ (collectTelemetry opts net pt state).requests
          = (tryCollectTelemetry net pt state).requests
      ∧ (collectTelemetry opts net pt state).err = (tryCollectTelemetry net pt state).err
      ∧ (collectTelemetry opts net pt state).pending
          = (tryCollectTelemetry net pt state).pending
      ∧ (collectTelemetry opts net pt state).state.lastSession
          = (tryCollectTelemetry net pt state).state.lastSession
      ∧ (collectTelemetry opts net pt state).state.lastSeqN
          = (tryCollectTelemetry net pt state).state.lastSeqN := by
  unfold collectTelemetry
  cases h : (tryCollectTelemetry net pt state).err with
  | none => simp [h]
  | some e => simp [h, peerError_keeps]

theorem tryCollectTelemetry_session (net : Net) (pt : DrainPoint) (state : peerState)
    (client : Client) (S : Session)
    (h1 : net state.id = .ok client) (h2 : client.SessionInfo = .ok S) :
    (tryCollectTelemetry net pt state).state.lastSession = S := by
  rw [tryCollectTelemetry_ok net pt state client S h1 h2]
  obtain ⟨n, hn⟩ := drainAtReturn_state pt S
    (if S ≠ state.lastSession then { state with lastSession := S } else state)
    (client.Snapshots (if S ≠ state.lastSession then 0 else state.lastSeqN)).1
  simp only [hn]
  exact session_after_switch S state

theorem finishDrain_session (steps : List DrainStep) :
    ∀ st : peerState, (finishDrain st steps).1.lastSession = st.lastSession := by
  induction steps with
  | nil => intro st; rfl
  | cons x rest ih =>
    intro st
    cases x with
    | store n => simp only [finishDrain]; rw [ih]
    | exportCall call => simp only [finishDrain]; rw [ih]

theorem collectTelemetry_session (opts : options) (net : Net) (pt : DrainPoint)
    (state : peerState) (client : Client) (S : Session)
    (h1 : net state.id = .ok client) (h2 : client.SessionInfo = .ok S) :
    (collectTelemetry opts net pt state).state.lastSession = S
      ∧ (finishDrain (collectTelemetry opts net pt state).state
          (collectTelemetry opts net pt state).pending).1.lastSession = S := by
  have hs := tryCollectTelemetry_session net pt state client S h1 h2
  obtain ⟨_, _, _, _, hl, _⟩ := collectTelemetry_fields opts net pt state
  have hc : (collectTelemetry opts net pt state).state.lastSession = S := by rw [hl, hs]
  exact ⟨hc, by rw [finishDrain_session, hc]⟩

/-- C4: in a telemetry collection whose session request succeeds with session S, the one
request made for snapshots carries since = 0 when S differs from the last session of the
record and since = the last sequence number of the record otherwise; and the last
session of the record is S from then on, whatever the stream delivers, whatever error it
returns and however far the draining goroutine has got, also after the failure handling
of the collector. -/
theorem telemetry_since_and_session (opts : options) (net : Net) (pt : DrainPoint)
    (state : peerState) (client : Client) (S : Session)
    (h1 : net state.id = .ok client) (h2 : client.SessionInfo = .ok S) :
    (tryCollectTelemetry net pt state).requests
        = [ClientCall.Snapshots (if S ≠ state.lastSession then 0 else state.lastSeqN)]
      ∧ (tryCollectTelemetry net pt state).state.lastSession = S
      ∧ (collectTelemetry opts net pt state).requests
        = [ClientCall.Snapshots (if S ≠ state.lastSession then 0 else state.lastSeqN)]
      ∧ (collectTelemetry opts net pt state).state.lastSession = S
      ∧ (finishDrain (collectTelemetry opts net pt state).state
          (collectTelemetry opts net pt state).pending).1.lastSession = S := by
  have hs := tryCollectTelemetry_session net pt state client S h1 h2
  have hr : (tryCollectTelemetry net pt state).requests
      = [ClientCall.Snapshots (if S ≠ state.lastSession then 0 else state.lastSeqN)] := by
    rw [tryCollectTelemetry_ok net pt state client S h1 h2]
  obtain ⟨_, hq, _, _, _, _⟩ := collectTelemetry_fields opts net pt state
  obtain ⟨hc, hd⟩ := collectTelemetry_session opts net pt state client S h1 h2
  exact ⟨hr, hs, by rw [hq, hr], hc, hd⟩

theorem telemetry_since_and_session_witness :
    (tryCollectTelemetry (netOf (streamClient 8 sampleItems (some "reset")))
        DrainPoint.received sampleRecord).requests
        = [ClientCall.Snapshots 0]
      ∧ (collectTelemetry sampleOpts (netOf (streamClient 8 sampleItems (some "reset")))
          DrainPoint.received sampleRecord).state.lastSession = 8 :=
  ⟨(telemetry_since_and_session sampleOpts (netOf (streamClient 8 sampleItems (some "reset")))
      DrainPoint.received sampleRecord (streamClient 8 sampleItems (some "reset")) 8 rfl rfl).1,
   (telemetry_since_and_session sampleOpts (netOf (streamClient 8 sampleItems (some "reset")))
      DrainPoint.received sampleRecord (streamClient 8 sampleItems (some "reset")) 8
      rfl rfl).2.2.2.1⟩

/-- C5, at the failing input: the record holds session 7 and sequence number 5, the peer
now reports session 8 and the stream ends before any batch.  The record is left with
session 8 and the sequence number 5 of session 7 (not 0), with nothing pending, and the
next collection that sees session 8 asks for the snapshots since 5 (not 0). -/
theorem session_change_keeps_stale_seqn (pt pt2 : DrainPoint) :
    (tryCollectTelemetry (netOf (streamClient 8 [] (some "stream reset"))) pt
        sampleRecord).requests
        = [ClientCall.Snapshots 0]
      ∧ (tryCollectTelemetry (netOf (streamClient 8 [] (some "stream reset"))) pt
          sampleRecord).state
        = { id := "P1", failedAttemps := 1, lastSession := 8, lastSeqN := 5 }
      ∧ (tryCollectTelemetry (netOf (streamClient 8 [] (some "stream reset"))) pt
          sampleRecord).pending = []
      ∧ (tryCollectTelemetry (netOf (streamClient 8 [] none)) pt sampleRecord).state
        = { id := "P1", failedAttemps := 1, lastSession := 8, lastSeqN := 5 }
      ∧ (tryCollectTelemetry (netOf (streamClient 8 sampleItems none)) pt2
          (tryCollectTelemetry (netOf (streamClient 8 [] (some "stream reset"))) pt
            sampleRecord).state).requests
        = [ClientCall.Snapshots 5] := by
  cases pt <;> cases pt2 <;> exact ⟨rfl, rfl, rfl, rfl, rfl⟩

/-- C6, as stated, fails at the return of the collector: on the input of scenario S1
(session 7, batches {3,[a,b,c]} and {5,[d,e]}), when the draining goroutine has received
the second batch and not yet handled it, the exporter has got the first call only and
the last sequence number of the record is 3, not 5. -/
theorem telemetry_last_batch_pending_at_return :
    (¬ ∀ (opts : options) (net : Net) (pt : DrainPoint) (state : peerState) (client : Client)
        (S : Session) (items : List SnapshotStreamItem) (err : Option Error),
        net state.id = .ok client → client.SessionInfo = .ok S →
        client.Snapshots (if S ≠ state.lastSession then 0 else state.lastSeqN) = (items, err) →
        ∀ hk : items ≠ [],
          (collectTelemetry opts net pt state).exported
              = items.map (fun b => ExporterCall.ExportSnapshots state.id S b.Snapshots)
            ∧ (collectTelemetry opts net pt state).state.lastSeqN = (items.getLast hk).NextSeqN)
      ∧ (collectTelemetry sampleOpts (netOf (streamClient 7 sampleItems none))
          DrainPoint.received freshRecord).exported
        = [ExporterCall.ExportSnapshots "P1" 7 ["a", "b", "c"]]
      ∧ (collectTelemetry sampleOpts (netOf (streamClient 7 sampleItems none))
          DrainPoint.received freshRecord).state
        = { id := "P1", failedAttemps := 0, lastSession := 7, lastSeqN := 3 }
      ∧ (collectTelemetry sampleOpts (netOf (streamClient 7 sampleItems none))
          DrainPoint.received freshRecord).pending
        = [DrainStep.store 5,
           DrainStep.exportCall (ExporterCall.ExportSnapshots "P1" 7 ["d", "e"])] := by
  refine ⟨?_, rfl, rfl, rfl⟩
  intro h
  have h1 := (h sampleOpts (netOf (streamClient 7 sampleItems none)) DrainPoint.received
    freshRecord (streamClient 7 sampleItems none) 7 sampleItems none rfl rfl rfl
    (by decide)).2
  revert h1
  decide

theorem finishDrain_congr (steps : List DrainStep) :
    ∀ st st2 : peerState, st2.lastSeqN = st.lastSeqN →
      (finishDrain st2 steps).1.lastSeqN = (finishDrain st steps).1.lastSeqN
        ∧ (finishDrain st2 steps).2 = (finishDrain st steps).2 := by
  induction steps with
  | nil => intro st st2 h; exact ⟨h, rfl⟩
  | cons x rest ih =>
    intro st st2 h
    cases x with
    | store n =>
      simp only [finishDrain]
      exact ih _ _ rfl
    | exportCall call =>
      simp only [finishDrain]
      obtain ⟨k1, k2⟩ := ih st st2 h
      exact ⟨k1, by rw [k2]⟩

theorem drainAtReturn_exported (pt : DrainPoint) (session : Session) (state : peerState)
    (items : List SnapshotStreamItem) (hk : items ≠ []) :
    (drainAtReturn pt session state items).2.1
      = (if pt = DrainPoint.exported then items else items.dropLast).map
          (fun b => ExporterCall.ExportSnapshots state.id session b.Snapshots) := by
  rcases List.eq_nil_or_concat items with h | ⟨L, b, h⟩
  · exact absurd h hk
  · rw [List.concat_eq_append] at h
    subst h
    rw [drainAtReturn_concat]
    cases pt <;> simp [drainStream_exported, List.dropLast_concat]

theorem drainAtReturn_seqn (pt : DrainPoint) (session : Session) (state : peerState)
    (items : List SnapshotStreamItem) (hk : items ≠ []) :
    (drainAtReturn pt session state items).1.lastSeqN
      = (if pt = DrainPoint.received then
          (items.dropLast.getLast?.map SnapshotStreamItem.NextSeqN).getD state.lastSeqN
         else (items.getLast hk).NextSeqN) := by
  rcases List.eq_nil_or_concat items with h | ⟨L, b, h⟩
  · exact absurd h hk
  · rw [List.concat_eq_append] at h
    subst h
    rw [drainAtReturn_concat]
    cases pt <;> simp [drainStream_state, List.dropLast_concat]

/-- C6, amended: in a telemetry collection in which the peer reports session S and the
snapshot stream delivers the batches `items` (at least one) before it ends, with or
without an error, the calls the exporter receives from the collection, up to the return
of the collector and from the draining goroutine after it, are exactly
`ExportSnapshots id S b.Snapshots` for the batches b of `items`, in their order and with
their snapshot lists as delivered; once the goroutine has finished, the record not
having been written by another collection meanwhile, its last sequence number is the
`NextSeqN` of the last batch and its last session is S.  At the return of the collector
the last session is S already, all batches but the last have been exported, and the last
one has been exported only if the goroutine got that far; the last sequence number is
then that of the last batch if the goroutine has stored it, and else that of the batch
before (the value the record had, when there is one batch only). -/
theorem telemetry_batches_exported_in_order (opts : options) (net : Net) (pt : DrainPoint)
    (state : peerState) (client : Client) (S : Session) (items : List SnapshotStreamItem)
    (err : Option Error)
    (h1 : net state.id = .ok client) (h2 : client.SessionInfo = .ok S)
    (h3 : client.Snapshots (if S ≠ state.lastSession then 0 else state.lastSeqN) = (items, err))
    (hk : items ≠ []) :
    (collectTelemetry opts net pt state).exported
          ++ (finishDrain (collectTelemetry opts net pt state).state
                (collectTelemetry opts net pt state).pending).2
        = items.map (fun b => ExporterCall.ExportSnapshots state.id S b.Snapshots)
      ∧ (finishDrain (collectTelemetry opts net pt state).state
          (collectTelemetry opts net pt state).pending).1.lastSeqN = (items.getLast hk).NextSeqN
      ∧ (finishDrain (collectTelemetry opts net pt state).state
          (collectTelemetry opts net pt state).pending).1.lastSession = S
      ∧ (collectTelemetry opts net pt state).state.lastSession = S
      ∧ (collectTelemetry opts net pt state).exported
        = (if pt = DrainPoint.exported then items else items.dropLast).map
            (fun b => ExporterCall.ExportSnapshots state.id S b.Snapshots)
      ∧ (collectTelemetry opts net pt state).state.lastSeqN
        = (if pt = DrainPoint.received then
            (items.dropLast.getLast?.map SnapshotStreamItem.NextSeqN).getD state.lastSeqN
           else (items.getLast hk).NextSeqN) := by
  obtain ⟨he, _, _, hp, _, hn⟩ := collectTelemetry_fields opts net pt state
  obtain ⟨hsess, hsess2⟩ := collectTelemetry_session opts net pt state client S h1 h2
  obtain ⟨c1, c2⟩ := finishDrain_congr (tryCollectTelemetry net pt state).pending
    (tryCollectTelemetry net pt state).state (collectTelemetry opts net pt state).state hn
  have hfin := drainAtReturn_finish pt S
    (if S ≠ state.lastSession then { state with lastSession := S } else state) items
  simp only [id_after_switch, seqn_after_switch] at hfin
  have htry := tryCollectTelemetry_ok net pt state client S h1 h2
  rw [h3] at htry
  have hTs := congrArg TryResult.state htry
  have hTe := congrArg TryResult.exported htry
  have hTp := congrArg TryResult.pending htry
  simp only at hTs hTe hTp
  refine ⟨?_, ?_, hsess2, hsess, ?_, ?_⟩
  · rw [hp, c2, he, hTs, hTe, hTp]
    exact hfin.2
  · rw [hp, c1, hTs, hTp, hfin.1, List.getLast?_eq_getLast items hk]
    rfl
  · rw [he, hTe, drainAtReturn_exported pt S _ items hk, id_after_switch]
  · rw [hn, hTs, drainAtReturn_seqn pt S _ items hk, seqn_after_switch]

theorem telemetry_batches_exported_in_order_witness :
    (collectTelemetry sampleOpts (netOf (streamClient 7 sampleItems none))
          DrainPoint.received freshRecord).exported
        ++ (finishDrain
              (collectTelemetry sampleOpts (netOf (streamClient 7 sampleItems none))
                DrainPoint.received freshRecord).state
              (collectTelemetry sampleOpts (netOf (streamClient 7 sampleItems none))
                DrainPoint.received freshRecord).pending).2
        = [ExporterCall.ExportSnapshots "P1" 7 ["a", "b", "c"],
           ExporterCall.ExportSnapshots "P1" 7 ["d", "e"]]
      ∧ (finishDrain
            (collectTelemetry sampleOpts (netOf (streamClient 7 sampleItems none))
              DrainPoint.received freshRecord).state
            (collectTelemetry sampleOpts (netOf (streamClient 7 sampleItems none))
              DrainPoint.received freshRecord).pending).1.lastSeqN = 5
      ∧ (finishDrain
            (collectTelemetry sampleOpts (netOf (streamClient 7 sampleItems none))
              DrainPoint.received freshRecord).state
            (collectTelemetry sampleOpts (netOf (streamClient 7 sampleItems none))
              DrainPoint.received freshRecord).pending).1.lastSession = 7 :=
  ⟨(telemetry_batches_exported_in_order sampleOpts (netOf (streamClient 7 sampleItems none))
      DrainPoint.received freshRecord (streamClient 7 sampleItems none) 7 sampleItems none
      rfl rfl rfl (by decide)).1,
   (telemetry_batches_exported_in_order sampleOpts (netOf (streamClient 7 sampleItems none))
      DrainPoint.received freshRecord (streamClient 7 sampleItems none) 7 sampleItems none
      rfl rfl rfl (by decide)).2.1,
   (telemetry_batches_exported_in_order sampleOpts (netOf (streamClient 7 sampleItems none))
      DrainPoint.received freshRecord (streamClient 7 sampleItems none) 7 sampleItems none
      rfl rfl rfl (by decide)).2.2.1⟩

/-! ## Rescheduling and failure handling -/

theorem tryCollectBandwidth_state (c : Consts) (net : Net) (state : peerState) :
    (tryCollectBandwidth c net state).state = state := by
  unfold tryCollectBandwidth
  split
  · rfl
  · split
    · rfl
    · split <;> rfl

/-- What a collector pushes on the waker, given the record it leaves and the error. -/
theorem pushed_of_try (opts : options) (kind : Nat) (period : Duration) (s : peerState) :
    ∀ err : Option Error,
      (match err with
        | none => [WakerCall.Push { kind := kind, pid := s.id } period]
        | some e => (peerError opts s e).2)
      = if err.isSome then
          (if s.failedAttemps + 1 > opts.MaxFailedAttemps then
            [WakerCall.PushNow { kind := ActionRemovePeer, pid := s.id }] else [])
        else [WakerCall.Push { kind := kind, pid := s.id } period] := by
  intro err
  cases err with
  | none => rfl
  | some e =>
    simp only [peerError, Option.isSome_some, if_true]
    split <;> rfl

theorem collectTelemetry_core (opts : options) (net : Net) (pt : DrainPoint)
    (state : peerState) :
    (collectTelemetry opts net pt state).state.id = state.id
      ∧ (collectTelemetry opts net pt state).state.failedAttemps
          = state.failedAttemps + (if (collectTelemetry opts net pt state).err.isSome then 1 else 0)
      ∧ (collectTelemetry opts net pt state).pushed
          = (if (collectTelemetry opts net pt state).err.isSome then
              (if state.failedAttemps + 1 > opts.MaxFailedAttemps then
                [WakerCall.PushNow { kind := ActionRemovePeer, pid := state.id }] else [])
             else [WakerCall.Push { kind := ActionTelemetry, pid := state.id } opts.CollectPeriod])
      ∧ (collectTelemetry opts net pt state).err = (tryCollectTelemetry net pt state).err := by
  obtain ⟨hid, hf⟩ := tryCollectTelemetry_keeps net pt state
  unfold collectTelemetry
  cases h : (tryCollectTelemetry net pt state).err with
  | none => simp [h, hid, hf]
  | some e =>
    have hp := pushed_of_try opts ActionTelemetry opts.CollectPeriod
      (tryCollectTelemetry net pt state).state (some e)
    simp only [Option.isSome_some, if_true, hid, hf] at hp
    simp [h, hid, hf, peerError_keeps, hp]

theorem collectBandwidth_core (opts : options) (c : Consts) (net : Net) (state : peerState) :
    (collectBandwidth opts c net state).state.id = state.id
      ∧ (collectBandwidth opts c net state).state.failedAttemps
          = state.failedAttemps + (if (collectBandwidth opts c net state).err.isSome then 1 else 0)
      ∧ (collectBandwidth opts c net state).pushed
          = (if (collectBandwidth opts c net state).err.isSome then
              (if state.failedAttemps + 1 > opts.MaxFailedAttemps then
                [WakerCall.PushNow { kind := ActionRemovePeer, pid := state.id }] else [])
             else [WakerCall.Push { kind := ActionBandwidth, pid := state.id } opts.BandwidthPeriod])
      ∧ (collectBandwidth opts c net state).err = (tryCollectBandwidth c net state).err := by
  have hs := tryCollectBandwidth_state c net state
  unfold collectBandwidth
  cases h : (tryCollectBandwidth c net state).err with
  | none => simp [h, hs]
  | some e =>
    have hp := pushed_of_try opts ActionBandwidth opts.BandwidthPeriod
      (tryCollectBandwidth c net state).state (some e)
    simp only [Option.isSome_some, if_true, hs] at hp
    simp [h, hs, peerError_keeps, hp]

/-- C9: a collector pushes its own action kind exactly when its attempt returned no
error.  After a successful telemetry attempt the only call on the waker is one `Push` of
a Telemetry action for the same peer with delay `CollectPeriod`; after a successful
bandwidth attempt it is one `Push` of a Bandwidth action for the same peer with delay
`BandwidthPeriod`; after a failed attempt of either kind no Telemetry and no Bandwidth
action is pushed (the only possible call is the `PushNow` of RemovePeer).  This holds
however far the draining goroutine of the telemetry attempt has got. -/
theorem collectors_reschedule_iff_success (opts : options) (c : Consts) (net : Net)
    (pt : DrainPoint) (state : peerState) :
    (collectTelemetry opts net pt state).pushed
        = (if (tryCollectTelemetry net pt state).err.isSome then
            (if state.failedAttemps + 1 > opts.MaxFailedAttemps then
              [WakerCall.PushNow { kind := ActionRemovePeer, pid := state.id }] else [])
           else [WakerCall.Push { kind := ActionTelemetry, pid := state.id } opts.CollectPeriod])
      ∧ (collectBandwidth opts c net state).pushed
        = (if (tryCollectBandwidth c net state).err.isSome then
            (if state.failedAttemps + 1 > opts.MaxFailedAttemps then
              [WakerCall.PushNow { kind := ActionRemovePeer, pid := state.id }] else [])
           else [WakerCall.Push { kind := ActionBandwidth, pid := state.id } opts.BandwidthPeriod])
      ∧ ((collectTelemetry opts net pt state).pushed.filter
            (fun w => w.act.kind = ActionTelemetry ∨ w.act.kind = ActionBandwidth)
          = if (tryCollectTelemetry net pt state).err.isSome then []
            else [WakerCall.Push { kind := ActionTelemetry, pid := state.id } opts.CollectPeriod])
      ∧ ((collectBandwidth opts c net state).pushed.filter
            (fun w => w.act.kind = ActionTelemetry ∨ w.act.kind = ActionBandwidth)
          = if (tryCollectBandwidth c net state).err.isSome then []
            else [WakerCall.Push { kind := ActionBandwidth, pid := state.id } opts.BandwidthPeriod]) := by
  obtain ⟨_, _, ht, het⟩ := collectTelemetry_core opts net pt state
  obtain ⟨_, _, hb, heb⟩ := collectBandwidth_core opts c net state
  rw [ht, hb, het, heb]
  refine ⟨rfl, rfl, ?_, ?_⟩
  · by_cases h1 : (tryCollectTelemetry net pt state).err.isSome
    · by_cases h2 : state.failedAttemps + 1 > opts.MaxFailedAttemps
      · simp [h1, h2, WakerCall.act, ActionRemovePeer, ActionTelemetry, ActionBandwidth]
      · simp [h1, h2]
    · simp [h1, WakerCall.act, ActionTelemetry]
  · by_cases h1 : (tryCollectBandwidth c net state).err.isSome
    · by_cases h2 : state.failedAttemps + 1 > opts.MaxFailedAttemps
      · simp [h1, h2, WakerCall.act, ActionRemovePeer, ActionTelemetry, ActionBandwidth]
      · simp [h1, h2]
    · simp [h1, WakerCall.act, ActionBandwidth, ActionTelemetry]

/-! ## Failure counting over a run on one record -/

theorem step_core (opts : options) (c : Consts) (state : peerState) (x : Event) :
    (step opts c state x).state.id = state.id
      ∧ (step opts c state x).state.failedAttemps
          = state.failedAttemps + (if (step opts c state x).err.isSome then 1 else 0)
      ∧ (WakerCall.PushNow { kind := ActionRemovePeer, pid := state.id }
            ∈ (step opts c state x).pushed
          ↔ (step opts c state x).err.isSome = true
              ∧ state.failedAttemps + 1 > opts.MaxFailedAttemps)
      ∧ (∀ w ∈ (step opts c state x).pushed, w.act.kind = ActionRemovePeer →
          w = WakerCall.PushNow { kind := ActionRemovePeer, pid := state.id }) := by
  cases x with
  | telemetry net pt =>
    obtain ⟨h1, h2, h3, _⟩ := collectTelemetry_core opts net pt state
    simp only [step]
    refine ⟨h1, h2, ?_, ?_⟩
    · rw [h3]
      by_cases e : (collectTelemetry opts net pt state).err.isSome
      · by_cases f : state.failedAttemps + 1 > opts.MaxFailedAttemps <;> simp [e, f]
      · simp [e]
    · rw [h3]
      by_cases e : (collectTelemetry opts net pt state).err.isSome
      · by_cases f : state.failedAttemps + 1 > opts.MaxFailedAttemps <;> simp [e, f]
      · simp [e, WakerCall.act, ActionTelemetry, ActionRemovePeer]
  | bandwidth net =>
    obtain ⟨h1, h2, h3, _⟩ := collectBandwidth_core opts c net state
    simp only [step]
    refine ⟨h1, h2, ?_, ?_⟩
    · rw [h3]
      by_cases e : (collectBandwidth opts c net state).err.isSome
      · by_cases f : state.failedAttemps + 1 > opts.MaxFailedAttemps <;> simp [e, f]
      · simp [e]
    · rw [h3]
      by_cases e : (collectBandwidth opts c net state).err.isSome
      · by_cases f : state.failedAttemps + 1 > opts.MaxFailedAttemps <;> simp [e, f]
      · simp [e, WakerCall.act, ActionBandwidth, ActionRemovePeer]
  | lateStore n => simp [step]

theorem stepAll_core (opts : options) (c : Consts) (xs : List Event) :
    ∀ state : peerState,
      (stepAll opts c state xs).id = state.id
        ∧ (stepAll opts c state xs).failedAttemps
            = state.failedAttemps + (failures opts c state xs : Int) := by
  induction xs with
  | nil => intro state; simp [stepAll, failures]
  | cons x rest ih =>
    intro state
    obtain ⟨h1, h2, _⟩ := step_core opts c state x
    obtain ⟨k1, k2⟩ := ih (step opts c state x).state
    simp only [stepAll, failures]
    refine ⟨by rw [k1, h1], ?_⟩
    rw [k2, h2]
    by_cases e : (step opts c state x).err.isSome
    · simp [e]; ring
    · simp [e]

theorem failures_append (opts : options) (c : Consts) (xs : List Event) (x : Event) :
    ∀ state : peerState,
      failures opts c state (xs ++ [x])
        = failures opts c state xs
          + (if (step opts c (stepAll opts c state xs) x).err.isSome then 1 else 0) := by
  induction xs with
  | nil => intro state; simp [stepAll, failures]
  | cons y rest ih =>
    intro state
    have h := ih (step opts c state y).state
    have hc : (y :: rest) ++ [x] = y :: (rest ++ [x]) := rfl
    rw [hc]
    simp only [failures, stepAll]
    rw [h]
    ring

theorem step_pushed_failed (opts : options) (c : Consts) (state : peerState)
    (x : Event) (h : (step opts c state x).err.isSome = true) :
    (step opts c state x).pushed
      = if state.failedAttemps + 1 > opts.MaxFailedAttemps then
          [WakerCall.PushNow { kind := ActionRemovePeer, pid := state.id }] else [] := by
  cases x with
  | telemetry net pt =>
    simp only [step] at h ⊢
    rw [(collectTelemetry_core opts net pt state).2.2.1]
    simp [h]
  | bandwidth net =>
    simp only [step] at h ⊢
    rw [(collectBandwidth_core opts c net state).2.2.1]
    simp [h]
  | lateStore n => simp [step] at h

theorem fresh_of_discover (c : Consts) (peers : Peers) (p : PeerID) (state : peerState)
    (habs : peers p = none)
    (hrec : (dispatch c peers { kind := ActionDiscover, pid := p }).peers p = some state) :
    state = { id := p, failedAttemps := 0, lastSession := c.InvalidSession, lastSeqN := 0 } := by
  rw [dispatch_discover, (onActionDiscover_absent c peers p habs).1] at hrec
  simp at hrec
  exact hrec.symm

/-- C8: take the record a Discover inserts for an unknown peer p and run on it any list
`xs` of telemetry collections (whatever their draining goroutines have done at the
return), bandwidth collections and late stores of `lastSeqN` by draining goroutines, then
one more `x`.  For every value of `MaxFailedAttemps` (so for every value ≥ 0): the failed
attempts of the record after `xs` are the number of collections of `xs` that failed (a
success leaves the count as it is); `x` makes the call `PushNow` of RemovePeer(p) exactly
when `x` fails and is at least failure number `MaxFailedAttemps + 1` of the run, and it
pushes a RemovePeer action in no other form; with `MaxFailedAttemps = 2` a failing `x`
that is failure number 1 or 2 pushes nothing and a failing `x` that is failure number 3
pushes RemovePeer(p). -/
theorem failures_counted_and_removal_threshold (opts : options) (c : Consts) (peers : Peers)
    (p : PeerID) (state : peerState) (xs : List Event) (x : Event)
    (habs : peers p = none)
    (hrec : (dispatch c peers { kind := ActionDiscover, pid := p }).peers p = some state) :
    (stepAll opts c state xs).failedAttemps = (failures opts c state xs : Int)
      ∧ (stepAll opts c state (xs ++ [x])).failedAttemps
          = (failures opts c state (xs ++ [x]) : Int)
      ∧ (WakerCall.PushNow { kind := ActionRemovePeer, pid := p }
            ∈ (step opts c (stepAll opts c state xs) x).pushed
          ↔ (step opts c (stepAll opts c state xs) x).err.isSome = true
              ∧ opts.MaxFailedAttemps + 1 ≤ (failures opts c state (xs ++ [x]) : Int))
      ∧ (∀ w ∈ (step opts c (stepAll opts c state xs) x).pushed,
          w.act.kind = ActionRemovePeer →
            w = WakerCall.PushNow { kind := ActionRemovePeer, pid := p })
      ∧ (opts.MaxFailedAttemps = 2 →
          (step opts c (stepAll opts c state xs) x).err.isSome = true →
            ((failures opts c state (xs ++ [x]) = 1 ∨ failures opts c state (xs ++ [x]) = 2 →
                (step opts c (stepAll opts c state xs) x).pushed = [])
              ∧ (failures opts c state (xs ++ [x]) = 3 →
                (step opts c (stepAll opts c state xs) x).pushed
                  = [WakerCall.PushNow { kind := ActionRemovePeer, pid := p }]))) := by
  have hs := fresh_of_discover c peers p state habs hrec
  have hid0 : state.id = p := by rw [hs]
  have hf0 : state.failedAttemps = 0 := by rw [hs]
  obtain ⟨hid, hf⟩ := stepAll_core opts c xs state
  obtain ⟨_, hf2⟩ := stepAll_core opts c (xs ++ [x]) state
  rw [hid0] at hid
  rw [hf0, zero_add] at hf hf2
  obtain ⟨_, _, hmem, honly⟩ := step_core opts c (stepAll opts c state xs) x
  rw [hid] at hmem honly
  have happ := failures_append opts c xs x state
  refine ⟨hf, hf2, ?_, honly, ?_⟩
  · rw [hmem, hf, happ]
    constructor
    · rintro ⟨e, g⟩
      refine ⟨e, ?_⟩
      simp only [e, if_true]
      push_cast
      omega
    · rintro ⟨e, g⟩
      refine ⟨e, ?_⟩
      simp only [e, if_true] at g
      push_cast at g
      omega
  · intro hmax e
    have hp := step_pushed_failed opts c (stepAll opts c state xs) x e
    rw [hid, hf, hmax] at hp
    rw [hp, happ]
    simp only [e, if_true]
    constructor
    · intro h
      have : ¬ ((failures opts c state xs : Int) + 1 > 2) := by omega
      simp [this]
    · intro h
      have : (failures opts c state xs : Int) + 1 > 2 := by omega
      simp [this]

theorem failures_counted_and_removal_threshold_witness :
    emptyPeers "P1" = none
      ∧ (stepAll sampleOpts sampleConsts freshRecord sampleEvents).failedAttemps = 2
      ∧ WakerCall.PushNow { kind := ActionRemovePeer, pid := "P1" }
          ∈ (step sampleOpts sampleConsts
              (stepAll sampleOpts sampleConsts freshRecord sampleEvents)
              (Event.telemetry failingNet DrainPoint.exported)).pushed :=
  ⟨rfl,
   (failures_counted_and_removal_threshold sampleOpts sampleConsts emptyPeers "P1" freshRecord
      sampleEvents (Event.telemetry failingNet DrainPoint.exported) rfl
      (by simp [dispatch_discover, onActionDiscover, setupPeer, emptyPeers, freshRecord,
            sampleConsts])).1.trans (by decide),
   (failures_counted_and_removal_threshold sampleOpts sampleConsts emptyPeers "P1" freshRecord
      sampleEvents (Event.telemetry failingNet DrainPoint.exported) rfl
      (by simp [dispatch_discover, onActionDiscover, setupPeer, emptyPeers, freshRecord,
            sampleConsts])).2.2.1.mpr ⟨by decide, by decide⟩⟩

/-! ## Order of the successive (session, sequence number) pairs -/

theorem logClient_inOrder (session : Session) (records : List Snapshot) (cut : Nat) :
    streamInOrder (logClient session records cut) := by
  intro since
  simp only [logClient]
  by_cases h1 : since < cut ∧ cut < records.length
  · simp only [h1, and_self, if_true, List.map_cons, List.map_nil]
    exact List.Chain.cons (Nat.le_of_lt h1.1)
      (List.Chain.cons (Nat.le_of_lt h1.2) List.Chain.nil)
  · by_cases h2 : since < records.length
    · simp only [h1, h2, if_false, if_true, List.map_cons, List.map_nil]
      exact List.Chain.cons (Nat.le_of_lt h2) List.Chain.nil
    · simp only [h1, h2, if_false, List.map_nil]
      exact List.Chain.nil

theorem drained_unreached (net : Net) (pt : DrainPoint) (state : peerState)
    (h : reportedSession state.id net = none) :
    drained (tryCollectTelemetry net pt state) = state := by
  obtain ⟨h1, h2, _⟩ := tryCollectTelemetry_unreached net pt state h
  simp only [drained, h1, h2, finishDrain]

theorem drained_ok (net : Net) (pt : DrainPoint) (state : peerState) (client : Client)
    (S : Session) (h1 : net state.id = .ok client) (h2 : client.SessionInfo = .ok S) :
    drained (tryCollectTelemetry net pt state)
      = { id := state.id
          failedAttemps := state.failedAttemps
          lastSession := S
          lastSeqN :=
            (((client.Snapshots (if S ≠ state.lastSession then 0 else state.lastSeqN)).1.getLast?).map
              SnapshotStreamItem.NextSeqN).getD state.lastSeqN } := by
  simp only [drained]
  rw [tryCollectTelemetry_ok net pt state client S h1 h2]
  simp only
  rw [(drainAtReturn_finish pt S _ _).1]
  simp only [id_after_switch, failed_after_switch, session_after_switch, seqn_after_switch]

theorem seqLE_refl (state : peerState) : seqLE state state :=
  ⟨Nat.le_refl _, fun _ => Nat.le_refl _⟩

/-- One collection by a peer that keeps the stream protocol and reports a session not
below the one of the record. -/
theorem seqLE_drained (net : Net) (pt : DrainPoint) (state : peerState) (client : Client)
    (S : Session) (h1 : net state.id = .ok client) (h2 : client.SessionInfo = .ok S)
    (hle : state.lastSession ≤ S) (hin : streamInOrder client) :
    seqLE state (drained (tryCollectTelemetry net pt state)) := by
  rw [drained_ok net pt state client S h1 h2]
  refine ⟨hle, ?_⟩
  intro heq
  have hS : S = state.lastSession := heq.symm
  simp only [hS, ne_eq, not_true_eq_false, if_false]
  cases hg : (client.Snapshots state.lastSeqN).1.getLast? with
  | none => simp
  | some b =>
    have hmem : b.NextSeqN ∈ (client.Snapshots state.lastSeqN).1.map SnapshotStreamItem.NextSeqN :=
      List.mem_map_of_mem _ (List.mem_of_getLast?_eq_some hg)
    have := List.Chain.rel (hin state.lastSeqN) hmem
    simpa using this

theorem seqLE_chain (run : List (Net × DrainPoint)) :
    ∀ state : peerState,
      List.Chain (fun a b => a ≤ b) state.lastSession
          (run.filterMap (fun x => reportedSession state.id x.1)) →
      (∀ x ∈ run, ∀ client, x.1 state.id = .ok client → streamInOrder client) →
      List.Chain seqLE state (telemetryTrace state run) := by
  induction run with
  | nil => intro state _ _; exact List.Chain.nil
  | cons x rest ih =>
    intro state hs hb
    simp only [telemetryTrace]
    cases h1 : x.1 state.id with
    | error e =>
      have hr : reportedSession state.id x.1 = none := by simp [reportedSession, h1]
      rw [drained_unreached x.1 x.2 state hr]
      simp only [List.filterMap_cons, hr] at hs
      exact List.Chain.cons (seqLE_refl state)
        (ih state hs (fun y hy => hb y (List.mem_cons_of_mem _ hy)))
    | ok client =>
      cases h2 : client.SessionInfo with
      | error e =>
        have hr : reportedSession state.id x.1 = none := by simp [reportedSession, h1, h2]
        rw [drained_unreached x.1 x.2 state hr]
        simp only [List.filterMap_cons, hr] at hs
        exact List.Chain.cons (seqLE_refl state)
          (ih state hs (fun y hy => hb y (List.mem_cons_of_mem _ hy)))
      | ok S =>
        have hr : reportedSession state.id x.1 = some S := by simp [reportedSession, h1, h2]
        simp only [List.filterMap_cons, hr] at hs
        obtain ⟨hle, hrest⟩ := List.chain_cons.mp hs
        have hin := hb x (List.mem_cons_self _ _) client h1
        have hstep := seqLE_drained x.1 x.2 state client S h1 h2 hle hin
        have hd := drained_ok x.1 x.2 state client S h1 h2
        refine List.Chain.cons hstep (ih _ ?_ ?_)
        · rw [hd]
          exact hrest
        · rw [hd]
          exact fun y hy => hb y (List.mem_cons_of_mem _ hy)

/-- C7, as stated, fails.  The record copies what the peer reports: from session 7 and
sequence number 5, a peer that reports session 7 and delivers a batch with `NextSeqN = 3`
leaves (7, 3), and a peer that reports session 6 leaves session 6.  And with a peer that
keeps the protocol: a first collection returns with the store of 5 still pending, a
second collection leaves (7, 9), and the pending store then puts the record back to
(7, 5). -/
theorem telemetry_pair_not_monotonic :
    (¬ ∀ (state : peerState) (run : List (Net × DrainPoint)),
        List.Chain' seqLE (state :: telemetryTrace state run))
      ∧ drained (tryCollectTelemetry
          (netOf (streamClient 7 [{ NextSeqN := 3, Snapshots := ["x"] }] none))
          DrainPoint.exported sampleRecord)
        = { id := "P1", failedAttemps := 1, lastSession := 7, lastSeqN := 3 }
      ∧ drained (tryCollectTelemetry (netOf (streamClient 6 [] none))
          DrainPoint.exported sampleRecord)
        = { id := "P1", failedAttemps := 1, lastSession := 6, lastSeqN := 5 }
      ∧ (tryCollectTelemetry (netOf (logClient 7 ["a", "b", "c", "d", "e"] 3))
          DrainPoint.received freshRecord).pending
        = [DrainStep.store 5,
           DrainStep.exportCall (ExporterCall.ExportSnapshots "P1" 7 ["d", "e"])]
      ∧ (tryCollectTelemetry
          (netOf (logClient 7 ["a", "b", "c", "d", "e", "f", "g", "h", "i"] 3))
          DrainPoint.exported
          (tryCollectTelemetry (netOf (logClient 7 ["a", "b", "c", "d", "e"] 3))
            DrainPoint.received freshRecord).state).state
        = { id := "P1", failedAttemps := 0, lastSession := 7, lastSeqN := 9 }
      ∧ (finishDrain
          (tryCollectTelemetry
            (netOf (logClient 7 ["a", "b", "c", "d", "e", "f", "g", "h", "i"] 3))
            DrainPoint.exported
            (tryCollectTelemetry (netOf (logClient 7 ["a", "b", "c", "d", "e"] 3))
              DrainPoint.received freshRecord).state).state
          (tryCollectTelemetry (netOf (logClient 7 ["a", "b", "c", "d", "e"] 3))
            DrainPoint.received freshRecord).pending).1
        = { id := "P1", failedAttemps := 0, lastSession := 7, lastSeqN := 5 } := by
  refine ⟨?_, by decide, by decide, by decide, by decide, by decide⟩
  intro h
  have h1 := h sampleRecord
    [(netOf (streamClient 7 [{ NextSeqN := 3, Snapshots := ["x"] }] none), DrainPoint.exported)]
  have h2 : seqLE sampleRecord
      (drained (tryCollectTelemetry
        (netOf (streamClient 7 [{ NextSeqN := 3, Snapshots := ["x"] }] none))
        DrainPoint.exported sampleRecord)) :=
    List.Chain'.rel_head h1
  revert h2
  decide

/-- C7, amended: take any record and any list of telemetry collections on it, each
started after the draining goroutine of the one before has finished, in which the peer
keeps the protocol: the sessions it reports, in the order of the collections, do not go
down and are not below the last session of the record at the start, and in every stream,
whatever `since` is asked for, the `NextSeqN` of the batches start at `since` or above and
do not go down.  Then the records observed at the start and after each collection has
been drained are in order: the session does not go down and, while it stays, the
sequence number does not go down. -/
theorem telemetry_pair_monotonic_when_peer_in_order (state : peerState)
    (run : List (Net × DrainPoint))
    (hs : List.Chain (fun a b => a ≤ b) state.lastSession
      (run.filterMap (fun x => reportedSession state.id x.1)))
    (hb : ∀ x ∈ run, ∀ client, x.1 state.id = .ok client → streamInOrder client) :
    List.Chain' seqLE (state :: telemetryTrace state run) :=
  seqLE_chain run state hs hb

theorem telemetry_pair_monotonic_when_peer_in_order_witness :
    telemetryTrace freshRecord sampleRun
        = [{ id := "P1", failedAttemps := 0, lastSession := 7, lastSeqN := 5 },
           { id := "P1", failedAttemps := 0, lastSession := 7, lastSeqN := 7 },
           { id := "P1", failedAttemps := 0, lastSession := 7, lastSeqN := 7 },
           { id := "P1", failedAttemps := 0, lastSession := 8, lastSeqN := 1 }]
      ∧ (tryCollectTelemetry (netOf (logClient 7 ["a", "b", "c", "d", "e", "f", "g"] 3))
          DrainPoint.stored
          { id := "P1", failedAttemps := 0, lastSession := 7, lastSeqN := 5 }).requests
        = [ClientCall.Snapshots 5]
      ∧ List.Chain' seqLE (freshRecord :: telemetryTrace freshRecord sampleRun) :=
  ⟨by decide, by decide,
   telemetry_pair_monotonic_when_peer_in_order freshRecord sampleRun
    (by simp [sampleRun, reportedSession, netOf, logClient, failingNet, freshRecord])
    (by
      intro x hx client hc
      simp only [sampleRun, List.mem_cons, List.mem_singleton, List.not_mem_nil, or_false] at hx
      rcases hx with h | h | h | h
      · subst h
        simp only [netOf, Except.ok.injEq] at hc
        subst hc
        exact logClient_inOrder _ _ _
      · subst h
        simp only [netOf, Except.ok.injEq] at hc
        subst hc
        exact logClient_inOrder _ _ _
      · subst h
        simp [failingNet] at hc
      · subst h
        simp only [netOf, Except.ok.injEq] at hc
        subst hc
        exact logClient_inOrder _ _ _)⟩

end Monitor
